import Mathlib

/-!
Verification of the inventory-aware fulfillment engine of dujiao-server.

The Go sources are shallowly embedded: repository tables become lists of
rows, fallible service calls become `Except`-valued functions, and the
three manual-stock counters become explicit integer fields.  Functions
present in the repository sources (`resolveOrderSKU`,
`syncSingleProductSKU`, `normalizeProductSKUInputs`) are translated
directly; components whose implementation is absent from the source tree
(Stock Ledger, Secret Pool, Fulfillment Orchestrator, Legacy Migration
Runner, cart upsert) are modelled from the specification, as marked in
their doc comments.
-/

namespace Dujiao

/-- Error taxonomy of the fulfillment core, one constructor per Go
sentinel error value used by the embedded functions. -/
inductive Err where
  | errProductNotAvailable
  | errProductSKUInvalid
  | errProductSKURequired
  | errManualStockInvalid
  | errProductPriceInvalid
  | errManualStockInsufficient
  | errInsufficientStock
  | errPoolExhausted
  deriving DecidableEq, Repr

/-- Fulfillment type of a product or order item (Go compares normalized
strings "manual" / "auto"; embedded as a two-valued type). -/
inductive FulfillmentType where
  | manual
  | auto
  deriving DecidableEq, Repr

/-- `models.ProductSKU`: a purchasable variant row.  `specValuesJSON` is
opaque display data and is omitted. -/
structure ProductSKU where
  id : Nat
  productID : Nat
  skuCode : String
  priceAmount : ℚ
  manualStockTotal : Int
  manualStockLocked : Int
  manualStockSold : Int
  isActive : Bool
  sortOrder : Int
  deriving DecidableEq, Repr

/-- The fields of `models.Product` consumed by the fulfillment core. -/
structure Product where
  id : Nat
  priceAmount : ℚ
  fulfillmentType : FulfillmentType
  manualStockTotal : Int
  manualStockLocked : Int
  manualStockSold : Int
  isActive : Bool
  deriving DecidableEq, Repr

/-- `ProductSKURepository.GetByID`: the row with the given primary key,
if any. -/
def skuGetByID (repo : List ProductSKU) (id : Nat) : Option ProductSKU :=
  repo.find? (fun s => s.id = id)

/-- `ProductSKURepository.ListByProduct`: all rows of a product, with an
`onlyActive` filter. -/
def skuListByProduct (repo : List ProductSKU) (productID : Nat) (onlyActive : Bool) :
    List ProductSKU :=
  repo.filter (fun s => s.productID = productID && (!onlyActive || s.isActive))

/-- `CartService.resolveOrderSKU`: explicit `rawSKUID > 0` loads that row
and requires it to belong to the product and be active; `rawSKUID = 0`
is the legacy compatibility path that auto-falls back to the unique
active SKU of the product. -/
def resolveOrderSKU (repo : List ProductSKU) (product : Product) (rawSKUID : Nat) :
    Except Err ProductSKU :=
  if product.id = 0 then
    .error .errProductNotAvailable
  else if rawSKUID > 0 then
    match skuGetByID repo rawSKUID with
    | none => .error .errProductSKUInvalid
    | some sku =>
      if sku.productID ≠ product.id ∨ sku.isActive = false then
        .error .errProductSKUInvalid
      else
        .ok sku
  else
    match skuListByProduct repo product.id true with
    | [] => .error .errProductSKUInvalid
    | [sku] => .ok sku
    | _ :: _ :: _ => .error .errProductSKURequired

/-- C3: SKU resolution: with `rawSKUID > 0` the result is exactly that
SKU when it exists, belongs to the product and is active, and
`errProductSKUInvalid` otherwise; with `rawSKUID = 0` the unique active
SKU is returned, zero active SKUs give `errProductSKUInvalid`, and two
or more give `errProductSKURequired`. -/
theorem resolveOrderSKU_spec (repo : List ProductSKU) (product : Product)
    (rawSKUID : Nat) (hp : product.id ≠ 0) :
    (∀ sku, rawSKUID > 0 →
      (resolveOrderSKU repo product rawSKUID = .ok sku ↔
        skuGetByID repo rawSKUID = some sku ∧ sku.productID = product.id ∧
          sku.isActive = true)) ∧
    (rawSKUID > 0 →
      (resolveOrderSKU repo product rawSKUID = .error .errProductSKUInvalid ↔
        ¬ ∃ sku, skuGetByID repo rawSKUID = some sku ∧
          sku.productID = product.id ∧ sku.isActive = true)) ∧
    (rawSKUID = 0 →
      (∀ sku, skuListByProduct repo product.id true = [sku] →
        resolveOrderSKU repo product rawSKUID = .ok sku) ∧
      (skuListByProduct repo product.id true = [] →
        resolveOrderSKU repo product rawSKUID = .error .errProductSKUInvalid) ∧
      (2 ≤ (skuListByProduct repo product.id true).length →
        resolveOrderSKU repo product rawSKUID = .error .errProductSKURequired)) := by
  refine ⟨?_, ?_, ?_⟩
  · intro sku hraw
    unfold resolveOrderSKU
    simp only [hp, if_false, hraw, if_true]
    cases h : skuGetByID repo rawSKUID with
    | none => simp
    | some s =>
      by_cases hb : s.productID ≠ product.id ∨ s.isActive = false
      · simp only [hb, if_true]
        constructor
        · intro hcontra; cases hcontra
        · rintro ⟨hs, hpid, hact⟩
          cases hs
          rcases hb with hb | hb
          · exact absurd hpid hb
          · rw [hact] at hb; cases hb
      · simp only [hb, if_false]
        push_neg at hb
        constructor
        · rintro h2
          cases h2
          exact ⟨rfl, hb.1, eq_true_of_ne_false hb.2⟩
        · rintro ⟨hs, _, _⟩
          cases hs
          rfl
  · intro hraw
    unfold resolveOrderSKU
    simp only [hp, if_false, hraw, if_true]
    cases h : skuGetByID repo rawSKUID with
    | none =>
      simp only [true_iff]
      rintro ⟨sku, hs, _⟩
      cases hs
    | some s =>
      by_cases hb : s.productID ≠ product.id ∨ s.isActive = false
      · simp only [hb, if_true, true_iff]
        rintro ⟨sku, hs, hpid, hact⟩
        cases hs
        rcases hb with hb | hb
        · exact hb hpid
        · rw [hact] at hb; cases hb
      · simp only [hb, if_false]
        push_neg at hb
        constructor
        · intro hcontra; cases hcontra
        · intro hno
          exact absurd ⟨s, rfl, hb.1, eq_true_of_ne_false hb.2⟩ hno
  · intro hraw
    subst hraw
    refine ⟨?_, ?_, ?_⟩
    · intro sku hlist
      unfold resolveOrderSKU
      simp only [hp, if_false]
      simp only [gt_iff_lt, Nat.lt_irrefl, if_false]
      rw [hlist]
    · intro hlist
      unfold resolveOrderSKU
      simp only [hp, if_false]
      simp only [gt_iff_lt, Nat.lt_irrefl, if_false]
      rw [hlist]
    · intro hlen
      unfold resolveOrderSKU
      simp only [hp, if_false]
      simp only [gt_iff_lt, Nat.lt_irrefl, if_false]
      cases hl : skuListByProduct repo product.id true with
      | nil => rw [hl] at hlen; simp at hlen
      | cons a tl =>
        cases tl with
        | nil => rw [hl] at hlen; simp at hlen
        | cons b tl2 => rfl

/-- C3 witness: a concrete two-SKU store exercising the explicit-SKU
branch of `resolveOrderSKU_spec`. -/
theorem resolveOrderSKU_spec_witness :
    resolveOrderSKU
      [⟨1001, 100, "BASE", 10, 0, 0, 0, true, 0⟩,
       ⟨1002, 100, "PRO", 30, 0, 0, 0, true, 0⟩]
      ⟨100, 10, .auto, 0, 0, 0, true⟩ 1001 =
      .ok ⟨1001, 100, "BASE", 10, 0, 0, 0, true, 0⟩ := by
  have h := resolveOrderSKU_spec
    [⟨1001, 100, "BASE", 10, 0, 0, 0, true, 0⟩,
     ⟨1002, 100, "PRO", 30, 0, 0, 0, true, 0⟩]
    ⟨100, 10, .auto, 0, 0, 0, true⟩ 1001 (by decide)
  exact (h.1 ⟨1001, 100, "BASE", 10, 0, 0, 0, true, 0⟩ (by decide)).mpr
    (by refine ⟨?_, rfl, rfl⟩; rfl)

/-- The three manual-stock counters of one SKU row. -/
structure StockCounters where
  total : Int
  locked : Int
  sold : Int
  deriving DecidableEq, Repr

/-- Modelled from the spec: the Stock Ledger implementation is not in
the source tree; per section 4.1, `Reserve(skuID, qty)` increments
`locked` by `qty` iff `total - locked - sold ≥ qty`, else fails with
`InsufficientStock` as a single atomic read-modify-write. -/
def Reserve (c : StockCounters) (qty : Int) : Except Err StockCounters :=
  if qty ≤ c.total - c.locked - c.sold then
    .ok { c with locked := c.locked + qty }
  else
    .error .errInsufficientStock

/-- C2: a reservation succeeds and increments `locked` by `qty` iff
`total - locked - sold ≥ qty`, otherwise it fails with
`errInsufficientStock` and the counters are unchanged (the error value
carries no new state); with total=20, locked=3, sold=5 reserving 12
succeeds and a further reservation of 1 fails. -/
theorem Reserve_spec (c : StockCounters) (qty : Int) :
    (Reserve c qty = .ok { c with locked := c.locked + qty } ↔
      c.total - c.locked - c.sold ≥ qty) ∧
    (Reserve c qty = .error .errInsufficientStock ↔
      ¬ c.total - c.locked - c.sold ≥ qty) ∧
    (∀ c', Reserve c qty = .ok c' →
      c' = { c with locked := c.locked + qty }) ∧
    (Reserve ⟨20, 3, 5⟩ 12 = .ok ⟨20, 15, 5⟩ ∧
      Reserve ⟨20, 15, 5⟩ 1 = .error .errInsufficientStock) := by
  refine ⟨?_, ?_, ?_, ⟨rfl, rfl⟩⟩
  · unfold Reserve
    by_cases h : qty ≤ c.total - c.locked - c.sold
    · rw [if_pos h]
      exact ⟨fun _ => h, fun _ => rfl⟩
    · rw [if_neg h]
      constructor
      · intro hc; cases hc
      · intro hc; exact absurd hc h
  · unfold Reserve
    by_cases h : qty ≤ c.total - c.locked - c.sold
    · rw [if_pos h]
      constructor
      · intro hc; cases hc
      · intro hc; exact absurd h hc
    · rw [if_neg h]
      exact ⟨fun _ => h, fun _ => rfl⟩
  · intro c'
    unfold Reserve
    by_cases h : qty ≤ c.total - c.locked - c.sold
    · rw [if_pos h]
      intro hc
      cases hc
      rfl
    · rw [if_neg h]
      intro hc
      cases hc

/-- Status of one card secret row. -/
inductive SecretStatus where
  | available
  | used
  | disabled
  deriving DecidableEq, Repr

/-- `models.CardSecret`: one individually addressable deliverable unit,
carrying denormalized `productID` and `skuID` foreign keys. -/
structure CardSecret where
  id : Nat
  productID : Nat
  skuID : Nat
  secret : String
  status : SecretStatus
  deriving DecidableEq, Repr

/-- Modelled from the spec: the Secret Pool implementation is not in the
source tree; per section 4.2, `Allocate(productID, skuID)` selects one
row with status `available` scoped to the exact `(productID, skuID)`
pair, atomically flips it to `used` and returns it, and fails with
`PoolExhausted` when no `available` row matches that exact SKU.  The
pool is traversed in storage order; the returned pair is the flipped row
and the updated pool. -/
def Allocate : List CardSecret → Nat → Nat → Except Err (CardSecret × List CardSecret)
  | [], _, _ => .error .errPoolExhausted
  | s :: rest, productID, skuID =>
    if s.productID = productID ∧ s.skuID = skuID ∧ s.status = .available then
      .ok ({ s with status := .used }, { s with status := .used } :: rest)
    else
      match Allocate rest productID skuID with
      | .ok (u, rest') => .ok (u, s :: rest')
      | .error e => .error e

/-- `Allocate` has a single failure mode: `errPoolExhausted`. -/
theorem Allocate_error_eq (pool : List CardSecret) (productID skuID : Nat) (e : Err)
    (h : Allocate pool productID skuID = .error e) : e = .errPoolExhausted := by
  induction pool with
  | nil =>
    unfold Allocate at h
    cases h
    rfl
  | cons s rest ih =>
    unfold Allocate at h
    by_cases hs : s.productID = productID ∧ s.skuID = skuID ∧ s.status = .available
    · rw [if_pos hs] at h
      cases h
    · rw [if_neg hs] at h
      cases hr : Allocate rest productID skuID with
      | error e2 =>
        rw [hr] at h
        cases h
        exact ih hr
      | ok p =>
        rw [hr] at h
        cases h

/-- C1: an allocated secret always carries the requested `(productID,
skuID)` pair and comes from an `available` row of the pool; every row of
a different SKU is left in the pool completely unchanged (in particular
it stays `available` if it was); and the call fails with
`errPoolExhausted` iff no `available` row matches the exact
`(productID, skuID)` pair. -/
theorem Allocate_sku_boundary (pool : List CardSecret) (productID skuID : Nat) :
    (∀ u pool', Allocate pool productID skuID = .ok (u, pool') →
      u.productID = productID ∧ u.skuID = skuID ∧ u.status = .used ∧
      (∃ s ∈ pool, s.productID = productID ∧ s.skuID = skuID ∧
        s.status = .available ∧ u = { s with status := .used }) ∧
      (∀ s ∈ pool, s.skuID ≠ skuID → s ∈ pool')) ∧
    (Allocate pool productID skuID = .error .errPoolExhausted ↔
      ¬ ∃ s ∈ pool, s.productID = productID ∧ s.skuID = skuID ∧
        s.status = .available) := by
  induction pool with
  | nil =>
    refine ⟨?_, ?_⟩
    · intro u pool' h
      cases h
    · simp [Allocate]
  | cons s rest ih =>
    by_cases hs : s.productID = productID ∧ s.skuID = skuID ∧ s.status = .available
    · refine ⟨?_, ?_⟩
      · intro u pool' h
        unfold Allocate at h
        rw [if_pos hs] at h
        cases h
        refine ⟨hs.1, hs.2.1, rfl, ⟨s, List.mem_cons_self s rest, hs.1, hs.2.1, hs.2.2, rfl⟩, ?_⟩
        intro t ht htne
        rcases List.mem_cons.mp ht with h1 | h1
        · subst h1
          exact absurd hs.2.1 htne
        · exact List.mem_cons_of_mem _ h1
      · unfold Allocate
        rw [if_pos hs]
        constructor
        · intro h; cases h
        · intro hno
          exact absurd ⟨s, List.mem_cons_self s rest, hs⟩ hno
    · cases hr : Allocate rest productID skuID with
      | error e =>
        have he : e = Err.errPoolExhausted := Allocate_error_eq rest productID skuID e hr
        subst he
        have hgoal : Allocate (s :: rest) productID skuID = .error .errPoolExhausted := by
          unfold Allocate
          rw [if_neg hs, hr]
        refine ⟨?_, ?_⟩
        · intro u pool' h
          rw [hgoal] at h
          cases h
        · rw [hgoal]
          have hiff := ih.2
          rw [hr] at hiff
          constructor
          · intro _
            rintro ⟨t, ht, htp⟩
            rcases List.mem_cons.mp ht with hh | hh
            · subst hh; exact hs htp
            · exact (hiff.mp rfl) ⟨t, hh, htp⟩
          · intro _; rfl
      | ok p =>
        obtain ⟨u0, rest'⟩ := p
        have hgoal : Allocate (s :: rest) productID skuID = .ok (u0, s :: rest') := by
          unfold Allocate
          rw [if_neg hs, hr]
        refine ⟨?_, ?_⟩
        · intro u pool' h
          rw [hgoal] at h
          cases h
          obtain ⟨h1, h2, h3, ⟨t, ht, htp⟩, h5⟩ := (ih.1) u0 rest' hr
          refine ⟨h1, h2, h3, ⟨t, List.mem_cons_of_mem _ ht, htp⟩, ?_⟩
          intro t' ht' htne
          rcases List.mem_cons.mp ht' with hh | hh
          · subst hh
            exact List.mem_cons_self _ _
          · exact List.mem_cons_of_mem _ (h5 t' hh htne)
        · rw [hgoal]
          constructor
          · intro hcontra; cases hcontra
          · intro hno
            exfalso
            obtain ⟨_, _, _, ⟨t, ht, htp1, htp2, htp3, _⟩, _⟩ := (ih.1) u0 rest' hr
            exact hno ⟨t, List.mem_cons_of_mem _ ht, htp1, htp2, htp3⟩

/-- C2 witness: the spec scenario total=20, locked=3, sold=5,
reserving 12, settled through `Reserve_spec`. -/
theorem Reserve_spec_witness :
    Reserve ⟨20, 3, 5⟩ 12 = .ok ⟨20, 15, 5⟩ :=
  (Reserve_spec ⟨20, 3, 5⟩ 12).1.mpr (by decide)

/-- C1 witness: in a pool holding secrets for SKUs 1001 and 1002 of
product 100, allocation for SKU 1001 returns a SKU-1001 secret and the
SKU-1002 secret survives untouched, via `Allocate_sku_boundary`. -/
theorem Allocate_sku_boundary_witness :
    (⟨1, 100, 1001, "SECRET-SKU-1001", SecretStatus.used⟩ : CardSecret).skuID = 1001 ∧
    (⟨2, 100, 1002, "SECRET-SKU-1002", SecretStatus.available⟩ : CardSecret) ∈
      [(⟨1, 100, 1001, "SECRET-SKU-1001", SecretStatus.used⟩ : CardSecret),
       ⟨2, 100, 1002, "SECRET-SKU-1002", SecretStatus.available⟩] := by
  have h := (Allocate_sku_boundary
      [⟨1, 100, 1001, "SECRET-SKU-1001", SecretStatus.available⟩,
       ⟨2, 100, 1002, "SECRET-SKU-1002", SecretStatus.available⟩] 100 1001).1
    ⟨1, 100, 1001, "SECRET-SKU-1001", SecretStatus.used⟩
    [⟨1, 100, 1001, "SECRET-SKU-1001", SecretStatus.used⟩,
     ⟨2, 100, 1002, "SECRET-SKU-1002", SecretStatus.available⟩] rfl
  exact ⟨h.2.1, h.2.2.2.2 _ (by simp) (by decide)⟩

/-- `models.OrderItem`: the fields consumed by the Fulfillment
Orchestrator. -/
structure OrderItem where
  id : Nat
  productID : Nat
  skuID : Nat
  fulfillmentType : FulfillmentType
  deriving DecidableEq, Repr

/-- `models.Fulfillment`: one row per successfully fulfilled order item,
carrying the delivered payload (empty for manual fulfillment). -/
structure Fulfillment where
  orderItemID : Nat
  payload : String
  deriving DecidableEq, Repr

/-- The storage touched by the Fulfillment Orchestrator: the secret pool
and the fulfillment table. -/
structure FulfillState where
  secrets : List CardSecret
  fulfillments : List Fulfillment
  deriving DecidableEq, Repr

/-- Number of fulfillment rows referencing one order item. -/
def fulfillCount (st : FulfillState) (orderItemID : Nat) : Nat :=
  st.fulfillments.countP (fun f => f.orderItemID = orderItemID)

/-- Modelled from the spec: the `FulfillmentService.CreateAuto`
implementation is not in the source tree; per section 4.4, one order
item is processed by first observing an existing `Fulfillment` row
(idempotence: no new allocation), otherwise allocating a secret for an
`auto` item or recording a payload-free row for a `manual` item. -/
def createAutoItem (st : FulfillState) (item : OrderItem) : Except Err FulfillState :=
  if st.fulfillments.any (fun f => f.orderItemID = item.id) then
    .ok st
  else
    match item.fulfillmentType with
    | .auto =>
      match Allocate st.secrets item.productID item.skuID with
      | .error e => .error e
      | .ok (u, secrets') =>
        .ok ⟨secrets', ⟨item.id, u.secret⟩ :: st.fulfillments⟩
    | .manual =>
      .ok ⟨st.secrets, ⟨item.id, ""⟩ :: st.fulfillments⟩

/-- Modelled from the spec: `CreateAuto(orderID)` processes the order
items in sequence; a failed allocation fails the whole call. -/
def CreateAuto (st : FulfillState) : List OrderItem → Except Err FulfillState
  | [] => .ok st
  | item :: rest =>
    match createAutoItem st item with
    | .error e => .error e
    | .ok st1 => CreateAuto st1 rest

theorem createAutoItem_ok_cases (st : FulfillState) (item : OrderItem)
    (st' : FulfillState) (h : createAutoItem st item = .ok st') :
    (st.fulfillments.any (fun f => f.orderItemID = item.id) = true ∧ st' = st) ∨
    (st.fulfillments.any (fun f => f.orderItemID = item.id) = false ∧
      ∃ pay secrets', st' = ⟨secrets', ⟨item.id, pay⟩ :: st.fulfillments⟩) := by
  unfold createAutoItem at h
  by_cases hf : st.fulfillments.any (fun f => f.orderItemID = item.id) = true
  · rw [if_pos hf] at h
    cases h
    exact Or.inl ⟨hf, rfl⟩
  · rw [if_neg hf] at h
    refine Or.inr ⟨Bool.eq_false_iff.mpr hf, ?_⟩
    cases hft : item.fulfillmentType with
    | auto =>
      rw [hft] at h
      cases ha : Allocate st.secrets item.productID item.skuID with
      | error e => rw [ha] at h; cases h
      | ok p =>
        obtain ⟨u, secrets'⟩ := p
        rw [ha] at h
        cases h
        exact ⟨u.secret, secrets', rfl⟩
    | manual =>
      rw [hft] at h
      cases h
      exact ⟨"", st.secrets, rfl⟩

theorem createAutoItem_count (st : FulfillState) (item : OrderItem)
    (st' : FulfillState) (h : createAutoItem st item = .ok st') (k : Nat) :
    fulfillCount st' k =
      fulfillCount st k +
        (if st.fulfillments.any (fun f => f.orderItemID = item.id) = false ∧ k = item.id
          then 1 else 0) := by
  rcases createAutoItem_ok_cases st item st' h with ⟨hf, hst⟩ | ⟨hf, pay, secrets', hst⟩
  · subst hst
    rw [hf]
    simp
  · subst hst
    rw [hf]
    unfold fulfillCount
    by_cases hk : k = item.id
    · subst hk
      simp [List.countP_cons]
    · simp only [List.countP_cons]
      have : (decide ((⟨item.id, pay⟩ : Fulfillment).orderItemID = k)) = false := by
        simp
        exact fun hc => hk hc.symm
      simp [this, hk]

theorem createAutoItem_fulfilled (st : FulfillState) (item : OrderItem)
    (st' : FulfillState) (h : createAutoItem st item = .ok st') :
    st'.fulfillments.any (fun f => f.orderItemID = item.id) = true := by
  rcases createAutoItem_ok_cases st item st' h with ⟨hf, hst⟩ | ⟨_, pay, secrets', hst⟩
  · subst hst; exact hf
  · subst hst
    simp

theorem createAutoItem_mono (st : FulfillState) (item : OrderItem)
    (st' : FulfillState) (h : createAutoItem st item = .ok st') (k : Nat)
    (hk : st.fulfillments.any (fun f => f.orderItemID = k) = true) :
    st'.fulfillments.any (fun f => f.orderItemID = k) = true := by
  rcases createAutoItem_ok_cases st item st' h with ⟨_, hst⟩ | ⟨_, pay, secrets', hst⟩
  · subst hst; exact hk
  · subst hst
    simp only [List.any_cons]
    rw [hk]
    simp

theorem CreateAuto_mono (items : List OrderItem) :
    ∀ st st', CreateAuto st items = .ok st' → ∀ k,
      st.fulfillments.any (fun f => f.orderItemID = k) = true →
      st'.fulfillments.any (fun f => f.orderItemID = k) = true := by
  induction items with
  | nil =>
    intro st st' h k hk
    unfold CreateAuto at h
    cases h
    exact hk
  | cons item rest ih =>
    intro st st' h k hk
    unfold CreateAuto at h
    cases hc : createAutoItem st item with
    | error e => rw [hc] at h; cases h
    | ok st1 =>
      rw [hc] at h
      exact ih st1 st' h k (createAutoItem_mono st item st1 hc k hk)

theorem CreateAuto_all_fulfilled (items : List OrderItem) :
    ∀ st st', CreateAuto st items = .ok st' →
      ∀ it ∈ items, st'.fulfillments.any (fun f => f.orderItemID = it.id) = true := by
  induction items with
  | nil =>
    intro st st' h it hit
    cases hit
  | cons item rest ih =>
    intro st st' h it hit
    unfold CreateAuto at h
    cases hc : createAutoItem st item with
    | error e => rw [hc] at h; cases h
    | ok st1 =>
      rw [hc] at h
      rcases List.mem_cons.mp hit with hh | hh
      · subst hh
        exact CreateAuto_mono rest st1 st' h it.id
          (createAutoItem_fulfilled st it st1 hc)
      · exact ih st1 st' h it hh

theorem CreateAuto_of_all_fulfilled (items : List OrderItem) (st : FulfillState)
    (h : ∀ it ∈ items, st.fulfillments.any (fun f => f.orderItemID = it.id) = true) :
    CreateAuto st items = .ok st := by
  induction items with
  | nil => rfl
  | cons item rest ih =>
    unfold CreateAuto
    have h1 : createAutoItem st item = .ok st := by
      unfold createAutoItem
      rw [if_pos (h item (List.mem_cons_self item rest))]
    rw [h1]
    exact ih (fun it hit => h it (List.mem_cons_of_mem _ hit))

theorem CreateAuto_count_untouched (items : List OrderItem) (st st' : FulfillState)
    (h : CreateAuto st items = .ok st') (k : Nat)
    (hk : ∀ it ∈ items, it.id ≠ k) :
    fulfillCount st' k = fulfillCount st k := by
  induction items generalizing st with
  | nil =>
    unfold CreateAuto at h
    cases h
    rfl
  | cons item rest ih =>
    unfold CreateAuto at h
    cases hc : createAutoItem st item with
    | error e => rw [hc] at h; cases h
    | ok st1 =>
      rw [hc] at h
      have h1 := createAutoItem_count st item st1 hc k
      have hne : k ≠ item.id := fun hcc =>
        hk item (List.mem_cons_self item rest) hcc.symm
      rw [ih st1 h (fun it hit => hk it (List.mem_cons_of_mem _ hit)), h1]
      simp [hne]

/-- C6: a successful `CreateAuto` leaves exactly one `Fulfillment` row
per order item (given distinct item ids and no pre-existing rows for
them), and calling `CreateAuto` again on the resulting state is
idempotent: it returns that state unchanged, so no new secret is
allocated and no secret changes status. -/
theorem CreateAuto_once_and_idempotent (st : FulfillState) (items : List OrderItem)
    (st' : FulfillState) (hok : CreateAuto st items = .ok st')
    (hnodup : (items.map (fun i => i.id)).Nodup)
    (hfresh : ∀ it ∈ items, fulfillCount st it.id = 0) :
    (∀ it ∈ items, fulfillCount st' it.id = 1) ∧
    CreateAuto st' items = .ok st' := by
  constructor
  · induction items generalizing st with
    | nil => intro it hit; cases hit
    | cons item rest ih =>
      intro it hit
      unfold CreateAuto at hok
      cases hc : createAutoItem st item with
      | error e => rw [hc] at hok; cases hok
      | ok st1 =>
        rw [hc] at hok
        have hany : st.fulfillments.any (fun f => f.orderItemID = item.id) = false := by
          have := hfresh item (List.mem_cons_self item rest)
          unfold fulfillCount at this
          rw [List.countP_eq_zero] at this
          rw [List.any_eq_false]
          intro f hf
          have := this f hf
          simpa using this
        have hcnt := createAutoItem_count st item st1 hc
        rcases List.mem_cons.mp hit with hh | hh
        · subst hh
          have hcnt1 : fulfillCount st1 it.id = 1 := by
            rw [hcnt it.id]
            have := hfresh it (List.mem_cons_self it rest)
            rw [this]
            simp [hany]
          have hrest : ∀ r ∈ rest, r.id ≠ it.id := by
            intro r hr
            have hnd := hnodup
            simp only [List.map_cons, List.nodup_cons] at hnd
            intro hcc
            exact hnd.1 (hcc ▸ List.mem_map_of_mem (fun i => i.id) hr)
          rw [CreateAuto_count_untouched rest st1 st' hok it.id hrest]
          exact hcnt1
        · have hnd2 : (rest.map (fun i => i.id)).Nodup := by
            simp only [List.map_cons, List.nodup_cons] at hnodup
            exact hnodup.2
          have hfresh2 : ∀ r ∈ rest, fulfillCount st1 r.id = 0 := by
            intro r hr
            rw [hcnt r.id]
            have hne : r.id ≠ item.id := by
              simp only [List.map_cons, List.nodup_cons] at hnodup
              intro hcc
              exact hnodup.1 (hcc ▸ List.mem_map_of_mem (fun i => i.id) hr)
            rw [hfresh r (List.mem_cons_of_mem _ hr)]
            simp [hne]
          exact ih st1 hok hnd2 hfresh2 it hh
  · exact CreateAuto_of_all_fulfilled items st'
      (CreateAuto_all_fulfilled items st st' hok)

/-- C6 witness: the test scenario — one auto order item, a matching
secret and a foreign-SKU secret — run through
`CreateAuto_once_and_idempotent`. -/
theorem CreateAuto_once_and_idempotent_witness :
    (∀ it ∈ [(⟨1, 100, 1001, .auto⟩ : OrderItem)],
      fulfillCount
        ⟨[⟨1, 100, 1001, "SECRET-SKU-1001", .used⟩,
          ⟨2, 100, 1002, "SECRET-SKU-1002", .available⟩],
         [⟨1, "SECRET-SKU-1001"⟩]⟩ it.id = 1) ∧
    CreateAuto
      ⟨[⟨1, 100, 1001, "SECRET-SKU-1001", .used⟩,
        ⟨2, 100, 1002, "SECRET-SKU-1002", .available⟩],
       [⟨1, "SECRET-SKU-1001"⟩]⟩
      [⟨1, 100, 1001, .auto⟩] =
      .ok ⟨[⟨1, 100, 1001, "SECRET-SKU-1001", .used⟩,
            ⟨2, 100, 1002, "SECRET-SKU-1002", .available⟩],
           [⟨1, "SECRET-SKU-1001"⟩]⟩ :=
  CreateAuto_once_and_idempotent
    ⟨[⟨1, 100, 1001, "SECRET-SKU-1001", .available⟩,
      ⟨2, 100, 1002, "SECRET-SKU-1002", .available⟩], []⟩
    [⟨1, 100, 1001, .auto⟩]
    ⟨[⟨1, 100, 1001, "SECRET-SKU-1001", .used⟩,
      ⟨2, 100, 1002, "SECRET-SKU-1002", .available⟩],
     [⟨1, "SECRET-SKU-1001"⟩]⟩
    rfl (by decide) (by decide)

/-- `models.CartItem`: keyed by `(userID, productID, skuID)`. -/
structure CartItem where
  userID : Nat
  productID : Nat
  skuID : Nat
  quantity : Int
  fulfillmentType : FulfillmentType
  deriving DecidableEq, Repr

/-- `models.CardSecretBatch`: provenance grouping of secrets, scoped to
`(productID, skuID)`. -/
structure CardSecretBatch where
  id : Nat
  productID : Nat
  skuID : Nat
  deriving DecidableEq, Repr

/-- The fixed sentinel code of the synthesized default SKU
(`models.DefaultSKUCode`; its concrete string is not in the source
tree). -/
def DefaultSKUCode : String := "default"

/-- The six tables touched by the Legacy Migration Runner. -/
structure MigState where
  products : List Product
  skus : List ProductSKU
  orderItems : List OrderItem
  cartItems : List CartItem
  batches : List CardSecretBatch
  secrets : List CardSecret
  deriving DecidableEq, Repr

/-- A fresh nonzero primary key for a synthesized SKU row. -/
def freshSKUID (skus : List ProductSKU) : Nat :=
  skus.foldl (fun m s => max m s.id) 0 + 1

/-- Modelled from the spec: the per-product step of
`ensureProductSKUMigration` is not in the source tree (only its test);
per spec section 4.5, a product with zero SKU rows gets one synthesized
SKU with the fixed sentinel code copying the product's price and three
stock counters verbatim, and every order item, cart item, secret batch
and secret row with the legacy zero `skuID` and a matching `productID`
is rewritten to the new SKU's id; a product that already has a SKU row
is left entirely alone. -/
def migrateProduct (st : MigState) (p : Product) : MigState :=
  if st.skus.any (fun s => s.productID = p.id) then
    st
  else
    let newID := freshSKUID st.skus
    { st with
      skus := st.skus ++
        [⟨newID, p.id, DefaultSKUCode, p.priceAmount, p.manualStockTotal,
          p.manualStockLocked, p.manualStockSold, true, 0⟩],
      orderItems := st.orderItems.map (fun o =>
        if o.productID = p.id ∧ o.skuID = 0 then { o with skuID := newID } else o),
      cartItems := st.cartItems.map (fun c =>
        if c.productID = p.id ∧ c.skuID = 0 then { c with skuID := newID } else c),
      batches := st.batches.map (fun b =>
        if b.productID = p.id ∧ b.skuID = 0 then { b with skuID := newID } else b),
      secrets := st.secrets.map (fun s =>
        if s.productID = p.id ∧ s.skuID = 0 then { s with skuID := newID } else s) }

/-- Modelled from the spec: `ensureProductSKUMigration` runs the
per-product backfill step over every product. -/
def ensureProductSKUMigration (st : MigState) : MigState :=
  st.products.foldl migrateProduct st

theorem migrateProduct_skip (st : MigState) (p : Product)
    (h : st.skus.any (fun s => s.productID = p.id) = true) :
    migrateProduct st p = st := by
  unfold migrateProduct
  rw [if_pos h]

theorem migrateProduct_products (st : MigState) (p : Product) :
    (migrateProduct st p).products = st.products := by
  unfold migrateProduct
  by_cases h : st.skus.any (fun s => s.productID = p.id) = true
  · rw [if_pos h]
  · rw [if_neg h]

theorem migrateProduct_any_mono (st : MigState) (p : Product) (q : Nat)
    (h : st.skus.any (fun s => s.productID = q) = true) :
    (migrateProduct st p).skus.any (fun s => s.productID = q) = true := by
  unfold migrateProduct
  by_cases hp : st.skus.any (fun s => s.productID = p.id) = true
  · rw [if_pos hp]
    exact h
  · rw [if_neg hp]
    simp only [List.any_append]
    rw [h]
    simp

theorem migrateProduct_creates (st : MigState) (p : Product) :
    (migrateProduct st p).skus.any (fun s => s.productID = p.id) = true := by
  unfold migrateProduct
  by_cases hp : st.skus.any (fun s => s.productID = p.id) = true
  · rw [if_pos hp]
    exact hp
  · rw [if_neg hp]
    simp

theorem migrateFold_products (l : List Product) :
    ∀ st : MigState, (l.foldl migrateProduct st).products = st.products := by
  induction l with
  | nil => intro st; rfl
  | cons p rest ih =>
    intro st
    simp only [List.foldl_cons]
    rw [ih (migrateProduct st p), migrateProduct_products]

theorem migrateFold_any_mono (l : List Product) :
    ∀ (st : MigState) (q : Nat), st.skus.any (fun s => s.productID = q) = true →
      (l.foldl migrateProduct st).skus.any (fun s => s.productID = q) = true := by
  induction l with
  | nil => intro st q h; exact h
  | cons p rest ih =>
    intro st q h
    simp only [List.foldl_cons]
    exact ih (migrateProduct st p) q (migrateProduct_any_mono st p q h)

theorem migrateFold_covers (l : List Product) :
    ∀ (st : MigState) (p : Product), p ∈ l →
      (l.foldl migrateProduct st).skus.any (fun s => s.productID = p.id) = true := by
  induction l with
  | nil => intro st p hp; cases hp
  | cons q rest ih =>
    intro st p hp
    simp only [List.foldl_cons]
    rcases List.mem_cons.mp hp with hh | hh
    · subst hh
      exact migrateFold_any_mono rest (migrateProduct st p) p.id
        (migrateProduct_creates st p)
    · exact ih (migrateProduct st q) p hh

theorem migrateFold_fixed (l : List Product) :
    ∀ st : MigState,
      (∀ p ∈ l, st.skus.any (fun s => s.productID = p.id) = true) →
      l.foldl migrateProduct st = st := by
  induction l with
  | nil => intro st _; rfl
  | cons p rest ih =>
    intro st h
    simp only [List.foldl_cons]
    rw [migrateProduct_skip st p (h p (List.mem_cons_self p rest))]
    exact ih st (fun q hq => h q (List.mem_cons_of_mem _ hq))

/-- C4: a product that already has at least one SKU row is skipped with
no writes by the per-product migration step, and running the full
legacy migration a second time yields exactly the state of the first
run (in particular per-product SKU counts are unchanged). -/
theorem ensureProductSKUMigration_idempotent :
    (∀ (st : MigState) (p : Product),
      st.skus.any (fun s => s.productID = p.id) = true →
      migrateProduct st p = st) ∧
    (∀ st : MigState,
      ensureProductSKUMigration (ensureProductSKUMigration st) =
        ensureProductSKUMigration st) := by
  constructor
  · exact migrateProduct_skip
  · intro st
    unfold ensureProductSKUMigration
    rw [migrateFold_products st.products st]
    exact migrateFold_fixed st.products (st.products.foldl migrateProduct st)
      (fun p hp => migrateFold_covers st.products st p hp)

/-- C4 witness: a one-product store with an existing SKU row is left
untouched by the per-product step of
`ensureProductSKUMigration_idempotent`. -/
theorem ensureProductSKUMigration_idempotent_witness :
    migrateProduct
      ⟨[⟨1, 128, .manual, 20, 3, 5, true⟩],
       [⟨7, 1, "default", 128, 20, 3, 5, true, 0⟩], [], [], [], []⟩
      ⟨1, 128, .manual, 20, 3, 5, true⟩ =
      ⟨[⟨1, 128, .manual, 20, 3, 5, true⟩],
       [⟨7, 1, "default", 128, 20, 3, 5, true, 0⟩], [], [], [], []⟩ :=
  ensureProductSKUMigration_idempotent.1
    ⟨[⟨1, 128, .manual, 20, 3, 5, true⟩],
     [⟨7, 1, "default", 128, 20, 3, 5, true, 0⟩], [], [], [], []⟩
    ⟨1, 128, .manual, 20, 3, 5, true⟩ (by decide)

/-- C5: for a product with zero SKU rows, the per-product migration
step appends exactly one SKU carrying the fixed default code and the
product's price and three stock counters verbatim, leaving the count of
default-code SKUs of that product at exactly 1, and rewrites `skuID` to
the new SKU's id on precisely the order items, cart items, secret
batches and secret rows whose `skuID` is 0 and whose `productID`
matches. -/
theorem migrateProduct_backfills (st : MigState) (p : Product)
    (h : st.skus.any (fun s => s.productID = p.id) = false) :
    ∃ newID : Nat, newID ≠ 0 ∧
      (migrateProduct st p).skus = st.skus ++
        [⟨newID, p.id, DefaultSKUCode, p.priceAmount, p.manualStockTotal,
          p.manualStockLocked, p.manualStockSold, true, 0⟩] ∧
      (migrateProduct st p).skus.countP
        (fun s => s.productID = p.id ∧ s.skuCode = DefaultSKUCode) = 1 ∧
      (migrateProduct st p).orderItems = st.orderItems.map (fun o =>
        if o.productID = p.id ∧ o.skuID = 0 then { o with skuID := newID } else o) ∧
      (migrateProduct st p).cartItems = st.cartItems.map (fun c =>
        if c.productID = p.id ∧ c.skuID = 0 then { c with skuID := newID } else c) ∧
      (migrateProduct st p).batches = st.batches.map (fun b =>
        if b.productID = p.id ∧ b.skuID = 0 then { b with skuID := newID } else b) ∧
      (migrateProduct st p).secrets = st.secrets.map (fun s =>
        if s.productID = p.id ∧ s.skuID = 0 then { s with skuID := newID } else s) := by
  have hneg : ¬ st.skus.any (fun s => s.productID = p.id) = true := by
    rw [h]; simp
  refine ⟨freshSKUID st.skus, Nat.succ_ne_zero _, ?_, ?_, ?_, ?_, ?_, ?_⟩
  · unfold migrateProduct
    rw [if_neg hneg]
  · unfold migrateProduct
    rw [if_neg hneg]
    simp only [List.countP_append]
    have hzero : st.skus.countP
        (fun s => s.productID = p.id ∧ s.skuCode = DefaultSKUCode) = 0 := by
      rw [List.countP_eq_zero]
      intro s hs
      have hno := List.any_eq_false.mp (Bool.eq_false_iff.mpr hneg) s hs
      simp only [decide_eq_true_eq] at hno ⊢
      intro hcc
      exact hno hcc.1
    rw [hzero]
    simp [List.countP_cons, DefaultSKUCode]
  · unfold migrateProduct
    rw [if_neg hneg]
  · unfold migrateProduct
    rw [if_neg hneg]
  · unfold migrateProduct
    rw [if_neg hneg]
  · unfold migrateProduct
    rw [if_neg hneg]

/-- C5 witness: the scenario of the migration test — one legacy product
(price 128, stock 20/3/5) with one zero-`skuID` row in each dependent
table — pushed through `migrateProduct_backfills`. -/
theorem migrateProduct_backfills_witness :
    ∃ newID : Nat, newID ≠ 0 ∧
      (migrateProduct
        ⟨[⟨1, 128, .manual, 20, 3, 5, true⟩], [],
         [⟨11, 1, 0, .manual⟩], [⟨1001, 1, 0, 2, .manual⟩],
         [⟨21, 1, 0⟩], [⟨31, 1, 0, "CARD-001", .available⟩]⟩
        ⟨1, 128, .manual, 20, 3, 5, true⟩).skus = [] ++
        [⟨newID, 1, DefaultSKUCode, 128, 20, 3, 5, true, 0⟩] ∧
      (migrateProduct
        ⟨[⟨1, 128, .manual, 20, 3, 5, true⟩], [],
         [⟨11, 1, 0, .manual⟩], [⟨1001, 1, 0, 2, .manual⟩],
         [⟨21, 1, 0⟩], [⟨31, 1, 0, "CARD-001", .available⟩]⟩
        ⟨1, 128, .manual, 20, 3, 5, true⟩).skus.countP
        (fun s => s.productID = 1 ∧ s.skuCode = DefaultSKUCode) = 1 ∧
      (migrateProduct
        ⟨[⟨1, 128, .manual, 20, 3, 5, true⟩], [],
         [⟨11, 1, 0, .manual⟩], [⟨1001, 1, 0, 2, .manual⟩],
         [⟨21, 1, 0⟩], [⟨31, 1, 0, "CARD-001", .available⟩]⟩
        ⟨1, 128, .manual, 20, 3, 5, true⟩).orderItems =
        [⟨11, 1, 0, .manual⟩].map (fun o =>
          if o.productID = 1 ∧ o.skuID = 0 then { o with skuID := newID } else o) ∧
      (migrateProduct
        ⟨[⟨1, 128, .manual, 20, 3, 5, true⟩], [],
         [⟨11, 1, 0, .manual⟩], [⟨1001, 1, 0, 2, .manual⟩],
         [⟨21, 1, 0⟩], [⟨31, 1, 0, "CARD-001", .available⟩]⟩
        ⟨1, 128, .manual, 20, 3, 5, true⟩).cartItems =
        [⟨1001, 1, 0, 2, .manual⟩].map (fun c =>
          if c.productID = 1 ∧ c.skuID = 0 then { c with skuID := newID } else c) ∧
      (migrateProduct
        ⟨[⟨1, 128, .manual, 20, 3, 5, true⟩], [],
         [⟨11, 1, 0, .manual⟩], [⟨1001, 1, 0, 2, .manual⟩],
         [⟨21, 1, 0⟩], [⟨31, 1, 0, "CARD-001", .available⟩]⟩
        ⟨1, 128, .manual, 20, 3, 5, true⟩).batches =
        [⟨21, 1, 0⟩].map (fun b =>
          if b.productID = 1 ∧ b.skuID = 0 then { b with skuID := newID } else b) ∧
      (migrateProduct
        ⟨[⟨1, 128, .manual, 20, 3, 5, true⟩], [],
         [⟨11, 1, 0, .manual⟩], [⟨1001, 1, 0, 2, .manual⟩],
         [⟨21, 1, 0⟩], [⟨31, 1, 0, "CARD-001", .available⟩]⟩
        ⟨1, 128, .manual, 20, 3, 5, true⟩).secrets =
        [⟨31, 1, 0, "CARD-001", .available⟩].map (fun s =>
          if s.productID = 1 ∧ s.skuID = 0 then { s with skuID := newID } else s) := by
  obtain ⟨newID, h1, h2, h3, h4, h5, h6, h7⟩ := migrateProduct_backfills
    ⟨[⟨1, 128, .manual, 20, 3, 5, true⟩], [],
     [⟨11, 1, 0, .manual⟩], [⟨1001, 1, 0, 2, .manual⟩],
     [⟨21, 1, 0⟩], [⟨31, 1, 0, "CARD-001", .available⟩]⟩
    ⟨1, 128, .manual, 20, 3, 5, true⟩ (by decide)
  exact ⟨newID, h1, h2, h3, h4, h5, h6, h7⟩

/-- The cart unique-key predicate: same `(userID, productID, skuID)`
triple. -/
def cartKeyMatches (item r : CartItem) : Bool :=
  r.userID = item.userID && r.productID = item.productID && r.skuID = item.skuID

/-- Modelled from the spec: the `CartRepository.Upsert` implementation
is not in the source tree (only its test); per spec section 3, cart
items are unique per `(userID, productID, skuID)`: an upsert with an
existing triple updates that row in place, otherwise a new row is
inserted. -/
def cartUpsert (rows : List CartItem) (item : CartItem) : List CartItem :=
  if rows.any (cartKeyMatches item) then
    rows.map (fun r =>
      if cartKeyMatches item r then
        { r with quantity := item.quantity, fulfillmentType := item.fulfillmentType }
      else r)
  else
    rows ++ [item]

/-- The cart row stored under one `(userID, productID, skuID)` triple. -/
def cartGet (rows : List CartItem) (u p s : Nat) : Option CartItem :=
  rows.find? (fun r => r.userID = u && r.productID = p && r.skuID = s)

theorem find?_append_of_none {α : Type} (p : α → Bool) (l1 l2 : List α)
    (h : l1.find? p = none) : (l1 ++ l2).find? p = l2.find? p := by
  induction l1 with
  | nil => rfl
  | cons x xs ih =>
    cases hx : p x with
    | true =>
      rw [List.find?_cons_of_pos _ hx] at h
      cases h
    | false =>
      have hx2 : ¬ p x = true := by rw [hx]; simp
      rw [List.find?_cons_of_neg _ hx2] at h
      simp only [List.cons_append]
      rw [List.find?_cons_of_neg _ hx2]
      exact ih h

theorem cartUpsert_insert (rows : List CartItem) (item : CartItem)
    (h : rows.any (cartKeyMatches item) = false) :
    cartUpsert rows item = rows ++ [item] := by
  unfold cartUpsert
  rw [h]
  simp

theorem cartUpsert_map (rows : List CartItem) (item : CartItem)
    (h : rows.any (cartKeyMatches item) = true) :
    cartUpsert rows item = rows.map (fun r =>
      if cartKeyMatches item r then
        { r with quantity := item.quantity, fulfillmentType := item.fulfillmentType }
      else r) := by
  unfold cartUpsert
  rw [h]
  simp

/-- C8: cart rows are unique per `(userID, productID, skuID)`, not per
`(userID, productID)`: starting from a cart with no row of the
`(userID, productID)` pair, upserting two items that differ only in
`skuID` yields two coexisting rows for that pair; re-upserting the
first triple with a new quantity updates that row in place — the row
count for the pair stays 2, the first triple's stored quantity becomes
the new one and the second triple's row keeps its own quantity. -/
theorem cartKeyMatches_iff (item r : CartItem) :
    cartKeyMatches item r = true ↔
      r.userID = item.userID ∧ r.productID = item.productID ∧
        r.skuID = item.skuID := by
  unfold cartKeyMatches
  simp [and_assoc]

theorem map_id_of {α : Type} (f : α → α) (l : List α) (h : ∀ x ∈ l, f x = x) :
    l.map f = l := by
  induction l with
  | nil => rfl
  | cons x xs ih =>
    simp only [List.map_cons]
    rw [h x (List.mem_cons_self x xs), ih (fun y hy => h y (List.mem_cons_of_mem _ hy))]

/-- C8: cart rows are unique per `(userID, productID, skuID)`, not per
`(userID, productID)`: starting from a cart with no row for the
`(userID, productID)` pair, upserting two items that differ only in
`skuID` yields two coexisting rows for that pair; re-upserting the
first triple with a new quantity updates that row in place — the row
count for the pair stays 2, the first triple's stored quantity becomes
the new one and the second triple's row keeps its own quantity. -/
theorem cartUpsert_sku_dimension (rows : List CartItem) (a b : CartItem) (q2 : Int)
    (hu : b.userID = a.userID) (hp : b.productID = a.productID)
    (hs : b.skuID ≠ a.skuID)
    (hfresh : rows.countP
      (fun r => r.userID = a.userID && r.productID = a.productID) = 0) :
    (cartUpsert (cartUpsert rows a) b).countP
      (fun r => r.userID = a.userID && r.productID = a.productID) = 2 ∧
    (cartUpsert (cartUpsert (cartUpsert rows a) b)
        { a with quantity := q2 }).countP
      (fun r => r.userID = a.userID && r.productID = a.productID) = 2 ∧
    cartGet (cartUpsert (cartUpsert (cartUpsert rows a) b)
        { a with quantity := q2 }) a.userID a.productID a.skuID =
      some { a with quantity := q2 } ∧
    cartGet (cartUpsert (cartUpsert (cartUpsert rows a) b)
        { a with quantity := q2 }) b.userID b.productID b.skuID = some b := by
  have hpair : ∀ r ∈ rows, ¬ (r.userID = a.userID ∧ r.productID = a.productID) := by
    intro r hr
    have h0 := (List.countP_eq_zero).mp hfresh r hr
    simpa using h0
  have hkeyA : ∀ r ∈ rows, ¬ cartKeyMatches a r = true := by
    intro r hr h
    have h1 := (cartKeyMatches_iff a r).mp h
    exact hpair r hr ⟨h1.1, h1.2.1⟩
  have hkeyB : ∀ r ∈ rows, ¬ cartKeyMatches b r = true := by
    intro r hr h
    have h1 := (cartKeyMatches_iff b r).mp h
    exact hpair r hr ⟨hu ▸ h1.1, hp ▸ h1.2.1⟩
  have hBA : ¬ cartKeyMatches b a = true := by
    intro h
    exact hs (((cartKeyMatches_iff b a).mp h).2.2).symm
  have step1 : cartUpsert rows a = rows ++ [a] :=
    cartUpsert_insert rows a (List.any_eq_false.mpr hkeyA)
  have step2 : cartUpsert (rows ++ [a]) b = (rows ++ [a]) ++ [b] := by
    apply cartUpsert_insert
    rw [List.any_eq_false]
    intro r hr
    rcases List.mem_append.mp hr with hh | hh
    · exact hkeyB r hh
    · rcases List.mem_singleton.mp hh with rfl
      exact hBA
  have hkeyA2a : cartKeyMatches { a with quantity := q2 } a = true := by
    rw [cartKeyMatches_iff]
    exact ⟨rfl, rfl, rfl⟩
  have hkeyA2b : ¬ cartKeyMatches { a with quantity := q2 } b = true := by
    intro h
    exact hs ((cartKeyMatches_iff _ b).mp h).2.2
  have hkeyA2rows : ∀ r ∈ rows, ¬ cartKeyMatches { a with quantity := q2 } r = true := by
    intro r hr h
    have h1 := (cartKeyMatches_iff _ r).mp h
    exact hpair r hr ⟨h1.1, h1.2.1⟩
  have hany : ((rows ++ [a]) ++ [b]).any
      (cartKeyMatches { a with quantity := q2 }) = true := by
    rw [List.any_eq_true]
    exact ⟨a, List.mem_append_left _ (List.mem_append_right _ (List.mem_singleton.mpr rfl)),
      hkeyA2a⟩
  have step3 : cartUpsert ((rows ++ [a]) ++ [b]) { a with quantity := q2 } =
      (rows ++ [{ a with quantity := q2 }]) ++ [b] := by
    rw [cartUpsert_map _ _ hany]
    simp only [List.map_append, List.map_cons, List.map_nil]
    rw [map_id_of _ rows (fun r hr => if_neg (hkeyA2rows r hr)),
      if_pos hkeyA2a, if_neg hkeyA2b]
  rw [step1, step2, step3]
  refine ⟨?_, ?_, ?_, ?_⟩
  · simp [List.countP_append, List.countP_cons, hfresh, hu, hp]
  · simp [List.countP_append, List.countP_cons, hfresh, hu, hp]
  · unfold cartGet
    rw [List.append_assoc]
    rw [find?_append_of_none _ rows _ (List.find?_eq_none.mpr ?none1)]
    · simp only [List.singleton_append]
      rw [List.find?_cons_of_pos]
      simp
    case none1 =>
      intro r hr h
      simp only [Bool.and_eq_true, decide_eq_true_eq] at h
      exact hpair r hr ⟨h.1.1, h.1.2⟩
  · unfold cartGet
    rw [List.append_assoc]
    rw [find?_append_of_none _ rows _ (List.find?_eq_none.mpr ?none2)]
    · simp only [List.singleton_append]
      rw [List.find?_cons_of_neg, List.find?_cons_of_pos]
      · simp
      · intro h
        simp only [Bool.and_eq_true, decide_eq_true_eq] at h
        exact hs h.2.symm
    case none2 =>
      intro r hr h
      simp only [Bool.and_eq_true, decide_eq_true_eq] at h
      exact hpair r hr ⟨hu ▸ h.1.1, hp ▸ h.1.2⟩

/-- C8 witness: the test scenario — user 10001, product 888, SKUs 101
and 102, quantities 1, 2 and then 5 — run through
`cartUpsert_sku_dimension` starting from an empty cart. -/
theorem cartUpsert_sku_dimension_witness :
    (cartUpsert (cartUpsert [] ⟨10001, 888, 101, 1, .manual⟩)
        ⟨10001, 888, 102, 2, .manual⟩).countP
      (fun r => r.userID = 10001 && r.productID = 888) = 2 ∧
    cartGet (cartUpsert (cartUpsert (cartUpsert [] ⟨10001, 888, 101, 1, .manual⟩)
        ⟨10001, 888, 102, 2, .manual⟩) ⟨10001, 888, 101, 5, .manual⟩)
        10001 888 101 = some ⟨10001, 888, 101, 5, .manual⟩ ∧
    cartGet (cartUpsert (cartUpsert (cartUpsert [] ⟨10001, 888, 101, 1, .manual⟩)
        ⟨10001, 888, 102, 2, .manual⟩) ⟨10001, 888, 101, 5, .manual⟩)
        10001 888 102 = some ⟨10001, 888, 102, 2, .manual⟩ := by
  have h := cartUpsert_sku_dimension [] ⟨10001, 888, 101, 1, .manual⟩
    ⟨10001, 888, 102, 2, .manual⟩ 5 rfl rfl (by decide) (by decide)
  exact ⟨h.1, h.2.2.1, h.2.2.2⟩

/-- `decimal.Round(2)` of shopspring/decimal: round to two decimal
places, halves away from zero. -/
def roundTo2 (x : ℚ) : ℚ :=
  if 0 ≤ x then ((⌊x * 100 + 1/2⌋ : ℤ) : ℚ) / 100
  else -(((⌊(-x) * 100 + 1/2⌋ : ℤ) : ℚ) / 100)

/-- `service.ProductSKUInput`: one SKU row of a create/update product
request (`SpecValuesJSON` is opaque display data and is omitted). -/
structure ProductSKUInput where
  id : Nat
  skuCode : String
  priceAmount : ℚ
  manualStockTotal : Int
  isActive : Option Bool
  sortOrder : Int
  deriving DecidableEq, Repr

/-- `service.normalizedProductSKU`: one validated SKU row. -/
structure NormalizedProductSKU where
  id : Nat
  skuCode : String
  priceAmount : ℚ
  manualStockTotal : Int
  isActive : Bool
  sortOrder : Int
  deriving DecidableEq, Repr

/-- The loop state of `normalizeProductSKUInputs`: the set of seen
lowercase codes, the accumulated rows, and the running `hasActive`,
`minActivePrice` and `manualStockTotal` values. -/
structure NormAcc where
  seen : List String
  normalized : List NormalizedProductSKU
  hasActive : Bool
  minActivePrice : ℚ
  manualStockTotal : Int
  deriving DecidableEq, Repr

/-- The effective manual stock total of one input: forced to 0 unless
the fulfillment type is manual (`if fulfillmentType !=
constants.FulfillmentTypeManual { manualTotal = 0 }`). -/
def manualTotalOf (ft : FulfillmentType) (input : ProductSKUInput) : Int :=
  if ft ≠ .manual then 0 else input.manualStockTotal

/-- Lookup in the `existingSKUMap` (a Go `map[uint]models.ProductSKU`,
embedded as an association list). -/
def mapLookup (m : List (Nat × ProductSKU)) (k : Nat) : Option ProductSKU :=
  (m.find? (fun e => e.1 = k)).map (fun e => e.2)

/-- The `existingSKUMap` guard of `normalizeProductSKUInputs`: an input
with a positive id must reference an existing SKU and must not lower
its manual total below `locked + sold`. -/
def checkExistingSKU (ft : FulfillmentType) :
    Option (List (Nat × ProductSKU)) → ProductSKUInput → Except Err Unit
  | none, _ => .ok ()
  | some m, input =>
    if input.id > 0 then
      match mapLookup m input.id with
      | none => .error .errProductSKUInvalid
      | some existing =>
        if manualTotalOf ft input <
            existing.manualStockLocked + existing.manualStockSold then
          .error .errManualStockInvalid
        else
          .ok ()
    else
      .ok ()

/-- One iteration of the `normalizeProductSKUInputs` loop body after
its guards: record the code as seen, append the normalized row, and
update `hasActive`, `minActivePrice` and the manual total sum. -/
def stepAcc (ft : FulfillmentType) (input : ProductSKUInput) (acc : NormAcc) : NormAcc :=
  { seen := input.skuCode.trim.toLower :: acc.seen,
    normalized := acc.normalized ++
      [⟨input.id, input.skuCode.trim, roundTo2 input.priceAmount,
        manualTotalOf ft input, input.isActive.getD true, input.sortOrder⟩],
    hasActive := acc.hasActive || input.isActive.getD true,
    minActivePrice :=
      if input.isActive.getD true &&
          (!acc.hasActive || roundTo2 input.priceAmount < acc.minActivePrice) then
        roundTo2 input.priceAmount
      else acc.minActivePrice,
    manualStockTotal := acc.manualStockTotal +
      (if input.isActive.getD true && ft = FulfillmentType.manual then
        manualTotalOf ft input
      else 0) }

/-- The loop of `service.normalizeProductSKUInputs`, guard for guard:
empty trimmed code, duplicate lowercase code, non-positive rounded
price, negative manual total and the existing-SKU check each abort with
the corresponding error. -/
def normalizeLoop (ft : FulfillmentType)
    (existingSKUMap : Option (List (Nat × ProductSKU))) :
    List ProductSKUInput → NormAcc → Except Err NormAcc
  | [], acc => .ok acc
  | input :: rest, acc =>
    if input.skuCode.trim = "" then
      .error .errProductSKUInvalid
    else if input.skuCode.trim.toLower ∈ acc.seen then
      .error .errProductSKUInvalid
    else if roundTo2 input.priceAmount ≤ 0 then
      .error .errProductPriceInvalid
    else if input.manualStockTotal < 0 then
      .error .errManualStockInvalid
    else
      match checkExistingSKU ft existingSKUMap input with
      | .error e => .error e
      | .ok _ => normalizeLoop ft existingSKUMap rest (stepAcc ft input acc)

/-- `service.normalizeProductSKUInputs`: validates the SKU rows of a
create/update request and returns the normalized rows, the minimum
active price and the summed active manual stock total (0 for non-manual
fulfillment). -/
def normalizeProductSKUInputs (inputs : List ProductSKUInput)
    (ft : FulfillmentType)
    (existingSKUMap : Option (List (Nat × ProductSKU))) :
    Except Err (List NormalizedProductSKU × ℚ × Int) :=
  if inputs.isEmpty then
    .error .errProductSKUInvalid
  else
    match normalizeLoop ft existingSKUMap inputs ⟨[], [], false, 0, 0⟩ with
    | .error e => .error e
    | .ok acc =>
      if acc.hasActive = false then
        .error .errProductSKUInvalid
      else
        .ok (acc.normalized, acc.minActivePrice,
          if ft ≠ .manual then 0 else acc.manualStockTotal)

/-- `service.syncSingleProductSKU`: keeps a single-SKU product's
default SKU in sync with the product-level price and manual total;
rejects a total below the SKU's `locked + sold`. -/
def syncSingleProductSKU (skus : List ProductSKU) (productID : Nat)
    (priceAmount : ℚ) (manualStockTotal : Int) (createWhenMissing : Bool) :
    Except Err (List ProductSKU) :=
  if productID = 0 then
    .ok skus
  else
    match skuListByProduct skus productID false with
    | [] =>
      if createWhenMissing = false then
        .ok skus
      else
        .ok (skus ++ [⟨freshSKUID skus, productID, DefaultSKUCode, priceAmount,
          manualStockTotal, 0, 0, true, 0⟩])
    | [sku] =>
      if manualStockTotal < sku.manualStockLocked + sku.manualStockSold then
        .error .errManualStockInvalid
      else
        .ok (skus.map (fun s =>
          if s.id = sku.id then
            { sku with
              priceAmount := priceAmount
              manualStockTotal := manualStockTotal
              isActive := true }
          else s))
    | _ :: _ :: _ => .ok skus

theorem normalizeLoop_cons_inv (ft : FulfillmentType)
    (existing : Option (List (Nat × ProductSKU))) (input : ProductSKUInput)
    (rest : List ProductSKUInput) (acc accF : NormAcc)
    (h : normalizeLoop ft existing (input :: rest) acc = .ok accF) :
    input.skuCode.trim ≠ "" ∧
    input.skuCode.trim.toLower ∉ acc.seen ∧
    0 < roundTo2 input.priceAmount ∧
    0 ≤ input.manualStockTotal ∧
    (∀ m, existing = some m → input.id > 0 →
      ∃ ex, mapLookup m input.id = some ex ∧
        ex.manualStockLocked + ex.manualStockSold ≤ manualTotalOf ft input) ∧
    normalizeLoop ft existing rest (stepAcc ft input acc) = .ok accF := by
  unfold normalizeLoop at h
  by_cases h1 : input.skuCode.trim = ""
  · rw [if_pos h1] at h; cases h
  rw [if_neg h1] at h
  by_cases h2 : input.skuCode.trim.toLower ∈ acc.seen
  · rw [if_pos h2] at h; cases h
  rw [if_neg h2] at h
  by_cases h3 : roundTo2 input.priceAmount ≤ 0
  · rw [if_pos h3] at h; cases h
  rw [if_neg h3] at h
  by_cases h4 : input.manualStockTotal < 0
  · rw [if_pos h4] at h; cases h
  rw [if_neg h4] at h
  cases h5 : checkExistingSKU ft existing input with
  | error e => rw [h5] at h; cases h
  | ok u =>
    rw [h5] at h
    refine ⟨h1, h2, lt_of_not_le h3, le_of_not_lt h4, ?_, h⟩
    intro m hm hid
    subst hm
    simp only [checkExistingSKU] at h5
    rw [if_pos hid] at h5
    cases h6 : mapLookup m input.id with
    | none =>
      simp only [h6] at h5
      cases h5
    | some ex =>
      simp only [h6] at h5
      by_cases h7 : manualTotalOf ft input <
          ex.manualStockLocked + ex.manualStockSold
      · rw [if_pos h7] at h5; cases h5
      · exact ⟨ex, rfl, le_of_not_lt h7⟩

theorem normalizeLoop_ok_elems (ft : FulfillmentType)
    (existing : Option (List (Nat × ProductSKU))) :
    ∀ (inputs : List ProductSKUInput) (acc accF : NormAcc),
      normalizeLoop ft existing inputs acc = .ok accF →
      ∀ i ∈ inputs, 0 < roundTo2 i.priceAmount ∧ 0 ≤ i.manualStockTotal ∧
        i.skuCode.trim.toLower ∉ acc.seen ∧
        (∀ m, existing = some m → i.id > 0 →
          ∃ ex, mapLookup m i.id = some ex ∧
            ex.manualStockLocked + ex.manualStockSold ≤ manualTotalOf ft i) := by
  intro inputs
  induction inputs with
  | nil =>
    intro acc accF h i hi
    cases hi
  | cons input rest ih =>
    intro acc accF h i hi
    obtain ⟨e1, e2, e3, e4, e5, e6⟩ :=
      normalizeLoop_cons_inv ft existing input rest acc accF h
    rcases List.mem_cons.mp hi with hh | hh
    · subst hh
      exact ⟨e3, e4, e2, e5⟩
    · have hrec := ih (stepAcc ft input acc) accF e6 i hh
      exact ⟨hrec.1, hrec.2.1,
        fun hc => hrec.2.2.1 (List.mem_cons_of_mem _ hc), hrec.2.2.2⟩

theorem normalizeLoop_nodup (ft : FulfillmentType)
    (existing : Option (List (Nat × ProductSKU))) :
    ∀ (inputs : List ProductSKUInput) (acc accF : NormAcc),
      normalizeLoop ft existing inputs acc = .ok accF →
      (inputs.map (fun i => i.skuCode.trim.toLower)).Nodup := by
  intro inputs
  induction inputs with
  | nil =>
    intro acc accF h
    simp
  | cons input rest ih =>
    intro acc accF h
    obtain ⟨e1, e2, e3, e4, e5, e6⟩ :=
      normalizeLoop_cons_inv ft existing input rest acc accF h
    simp only [List.map_cons, List.nodup_cons]
    refine ⟨?_, ih (stepAcc ft input acc) accF e6⟩
    intro hmem
    obtain ⟨i, hi, hcode⟩ := List.mem_map.mp hmem
    have := (normalizeLoop_ok_elems ft existing rest (stepAcc ft input acc) accF e6
      i hi).2.2.1
    apply this
    rw [hcode]
    exact List.mem_cons_self _ _

theorem normalizeLoop_hasActive (ft : FulfillmentType)
    (existing : Option (List (Nat × ProductSKU))) :
    ∀ (inputs : List ProductSKUInput) (acc accF : NormAcc),
      normalizeLoop ft existing inputs acc = .ok accF →
      accF.hasActive = (acc.hasActive || inputs.any (fun i => i.isActive.getD true)) := by
  intro inputs
  induction inputs with
  | nil =>
    intro acc accF h
    cases h
    simp
  | cons input rest ih =>
    intro acc accF h
    obtain ⟨e1, e2, e3, e4, e5, e6⟩ :=
      normalizeLoop_cons_inv ft existing input rest acc accF h
    have hrec := ih (stepAcc ft input acc) accF e6
    rw [hrec]
    simp [stepAcc, Bool.or_assoc]

theorem normalizeLoop_manualTotal (ft : FulfillmentType)
    (existing : Option (List (Nat × ProductSKU))) :
    ∀ (inputs : List ProductSKUInput) (acc accF : NormAcc),
      normalizeLoop ft existing inputs acc = .ok accF →
      accF.manualStockTotal = acc.manualStockTotal +
        (if ft = .manual then
          ((inputs.filter (fun i => i.isActive.getD true)).map
            (fun i => i.manualStockTotal)).sum
        else 0) := by
  intro inputs
  induction inputs with
  | nil =>
    intro acc accF h
    cases h
    by_cases hft : ft = FulfillmentType.manual
    · simp [hft]
    · simp [hft]
  | cons input rest ih =>
    intro acc accF h
    obtain ⟨e1, e2, e3, e4, e5, e6⟩ :=
      normalizeLoop_cons_inv ft existing input rest acc accF h
    have hrec := ih (stepAcc ft input acc) accF e6
    rw [hrec]
    by_cases hft : ft = FulfillmentType.manual
    · subst hft
      cases heff : input.isActive.getD true with
      | true =>
        simp only [stepAcc, heff, manualTotalOf, List.filter_cons, List.map_cons]
        simp [heff, Int.add_assoc]
      | false =>
        simp only [stepAcc, heff, List.filter_cons]
        simp [heff]
    · have hft2 : (ft = FulfillmentType.manual) = False := by
        simp [hft]
      simp only [stepAcc, hft2, if_neg hft]
      simp

theorem normalizeLoop_min (ft : FulfillmentType)
    (existing : Option (List (Nat × ProductSKU))) :
    ∀ (inputs : List ProductSKUInput) (acc accF : NormAcc),
      normalizeLoop ft existing inputs acc = .ok accF →
      (∀ i ∈ inputs, i.isActive.getD true = true →
        accF.minActivePrice ≤ roundTo2 i.priceAmount) ∧
      (acc.hasActive = true →
        accF.minActivePrice ≤ acc.minActivePrice ∧
        (accF.minActivePrice = acc.minActivePrice ∨
          ∃ i ∈ inputs, i.isActive.getD true = true ∧
            accF.minActivePrice = roundTo2 i.priceAmount)) ∧
      (acc.hasActive = false →
        (inputs.any (fun i => i.isActive.getD true) = false →
          accF.minActivePrice = acc.minActivePrice) ∧
        (inputs.any (fun i => i.isActive.getD true) = true →
          ∃ i ∈ inputs, i.isActive.getD true = true ∧
            accF.minActivePrice = roundTo2 i.priceAmount)) := by
  intro inputs
  induction inputs with
  | nil =>
    intro acc accF h
    cases h
    refine ⟨?_, ?_, ?_⟩
    · intro i hi
      cases hi
    · intro _
      exact ⟨le_refl _, Or.inl rfl⟩
    · intro _
      refine ⟨fun _ => rfl, fun habs => ?_⟩
      simp at habs
  | cons input rest ih =>
    intro acc accF h
    obtain ⟨e1, e2, e3, e4, e5, e6⟩ :=
      normalizeLoop_cons_inv ft existing input rest acc accF h
    have hrec := ih (stepAcc ft input acc) accF e6
    cases heff : input.isActive.getD true with
    | false =>
      have hAmin : (stepAcc ft input acc).minActivePrice = acc.minActivePrice := by
        simp [stepAcc, heff]
      have hAhas : (stepAcc ft input acc).hasActive = acc.hasActive := by
        simp [stepAcc, heff]
      refine ⟨?_, ?_, ?_⟩
      · intro i hi hact
        rcases List.mem_cons.mp hi with hh | hh
        · subst hh
          rw [heff] at hact
          cases hact
        · exact hrec.1 i hh hact
      · intro h2
        have hr2 := hrec.2.1 (by rw [hAhas]; exact h2)
        rw [hAmin] at hr2
        refine ⟨hr2.1, ?_⟩
        rcases hr2.2 with hl | ⟨i, hi, hact, heq⟩
        · exact Or.inl hl
        · exact Or.inr ⟨i, List.mem_cons_of_mem _ hi, hact, heq⟩
      · intro h3
        have hr3 := hrec.2.2 (by rw [hAhas]; exact h3)
        rw [hAmin] at hr3
        constructor
        · intro hany
          apply hr3.1
          simp only [List.any_cons, heff, Bool.false_or] at hany
          exact hany
        · intro hany
          simp only [List.any_cons, heff, Bool.false_or] at hany
          obtain ⟨i, hi, hact, heq⟩ := hr3.2 hany
          exact ⟨i, List.mem_cons_of_mem _ hi, hact, heq⟩
    | true =>
      have hAhas : (stepAcc ft input acc).hasActive = true := by
        simp [stepAcc, heff]
      cases hacc : acc.hasActive with
      | false =>
        have hAmin : (stepAcc ft input acc).minActivePrice =
            roundTo2 input.priceAmount := by
          simp [stepAcc, heff, hacc]
        have hr2 := hrec.2.1 hAhas
        rw [hAmin] at hr2
        refine ⟨?_, ?_, ?_⟩
        · intro i hi hact
          rcases List.mem_cons.mp hi with hh | hh
          · subst hh
            exact hr2.1
          · exact hrec.1 i hh hact
        · intro h2
          simp [hacc] at h2
        · intro _
          constructor
          · intro hany
            simp only [List.any_cons, heff, Bool.true_or] at hany
            cases hany
          · intro _
            rcases hr2.2 with hl | ⟨i, hi, hact, heq⟩
            · exact ⟨input, List.mem_cons_self _ _, heff, hl⟩
            · exact ⟨i, List.mem_cons_of_mem _ hi, hact, heq⟩
      | true =>
        have hAle : (stepAcc ft input acc).minActivePrice ≤ acc.minActivePrice ∧
            (stepAcc ft input acc).minActivePrice ≤ roundTo2 input.priceAmount ∧
            ((stepAcc ft input acc).minActivePrice = acc.minActivePrice ∨
              (stepAcc ft input acc).minActivePrice = roundTo2 input.priceAmount) := by
          by_cases hlt : roundTo2 input.priceAmount < acc.minActivePrice
          · have : (stepAcc ft input acc).minActivePrice =
                roundTo2 input.priceAmount := by
              simp [stepAcc, heff, hacc, hlt]
            rw [this]
            exact ⟨le_of_lt hlt, le_refl _, Or.inr rfl⟩
          · have : (stepAcc ft input acc).minActivePrice = acc.minActivePrice := by
              simp [stepAcc, heff, hacc, hlt]
            rw [this]
            exact ⟨le_refl _, le_of_not_lt hlt, Or.inl rfl⟩
        have hr2 := hrec.2.1 hAhas
        refine ⟨?_, ?_, ?_⟩
        · intro i hi hact
          rcases List.mem_cons.mp hi with hh | hh
          · subst hh
            exact le_trans hr2.1 hAle.2.1
          · exact hrec.1 i hh hact
        · intro _
          refine ⟨le_trans hr2.1 hAle.1, ?_⟩
          rcases hr2.2 with hl | ⟨i, hi, hact, heq⟩
          · rcases hAle.2.2 with h5l | h5r
            · exact Or.inl (hl.trans h5l)
            · exact Or.inr ⟨input, List.mem_cons_self _ _, heff, hl.trans h5r⟩
          · exact Or.inr ⟨i, List.mem_cons_of_mem _ hi, hact, heq⟩
        · intro h3
          simp [hacc] at h3

theorem roundTo2_nonpos (x : ℚ) (hx : x ≤ 0) : roundTo2 x ≤ 0 := by
  unfold roundTo2
  by_cases h : 0 ≤ x
  · have hx0 : x = 0 := le_antisymm hx h
    subst hx0
    rw [if_pos h]
    have hfl : ⌊(0 : ℚ) * 100 + 1/2⌋ = 0 := by
      rw [Int.floor_eq_iff]
      norm_num
    rw [hfl]
    norm_num
  · rw [if_neg h]
    have hxneg : 0 < -x := by linarith
    have hfloor : (0 : ℤ) ≤ ⌊(-x) * 100 + 1/2⌋ := by
      rw [Int.le_floor]
      have h100 : (0 : ℚ) < (-x) * 100 := mul_pos hxneg (by norm_num)
      push_cast
      linarith
    have hcast : (0 : ℚ) ≤ ((⌊(-x) * 100 + 1/2⌋ : ℤ) : ℚ) := by
      exact_mod_cast hfloor
    have : (0 : ℚ) ≤ ((⌊(-x) * 100 + 1/2⌋ : ℤ) : ℚ) / 100 :=
      div_nonneg hcast (by norm_num)
    linarith

theorem normalizeProductSKUInputs_ok_inv (inputs : List ProductSKUInput)
    (ft : FulfillmentType) (existing : Option (List (Nat × ProductSKU)))
    (norm : List NormalizedProductSKU) (price : ℚ) (total : Int)
    (h : normalizeProductSKUInputs inputs ft existing = .ok (norm, price, total)) :
    ∃ acc : NormAcc,
      normalizeLoop ft existing inputs ⟨[], [], false, 0, 0⟩ = .ok acc ∧
      acc.hasActive = true ∧ norm = acc.normalized ∧
      price = acc.minActivePrice ∧
      total = (if ft ≠ .manual then 0 else acc.manualStockTotal) := by
  unfold normalizeProductSKUInputs at h
  by_cases hempty : inputs.isEmpty
  · rw [if_pos hempty] at h
    cases h
  rw [if_neg hempty] at h
  cases hloop : normalizeLoop ft existing inputs ⟨[], [], false, 0, 0⟩ with
  | error e =>
    simp only [hloop] at h
    cases h
  | ok acc =>
    simp only [hloop] at h
    by_cases hact : acc.hasActive = false
    · rw [if_pos hact] at h
      cases h
    · rw [if_neg hact] at h
      cases h
      exact ⟨acc, rfl, eq_true_of_ne_false hact, rfl, rfl, rfl⟩

/-- C10: `normalizeProductSKUInputs` returns as product price the
minimum of the active inputs' rounded prices (attained by one of them)
and as manual stock total the sum of the active inputs' manual totals
for manual fulfillment and 0 otherwise; an input list with no active
SKU, a duplicate case-insensitive code, a non-positive price, or a
negative manual stock total is rejected with an error. -/
theorem normalizeProductSKUInputs_spec (inputs : List ProductSKUInput)
    (ft : FulfillmentType) (existing : Option (List (Nat × ProductSKU))) :
    (∀ norm price total,
      normalizeProductSKUInputs inputs ft existing = .ok (norm, price, total) →
      (∃ i ∈ inputs, i.isActive.getD true = true ∧
        price = roundTo2 i.priceAmount) ∧
      (∀ i ∈ inputs, i.isActive.getD true = true →
        price ≤ roundTo2 i.priceAmount) ∧
      (ft = .manual →
        total = ((inputs.filter (fun i => i.isActive.getD true)).map
          (fun i => i.manualStockTotal)).sum) ∧
      (ft ≠ .manual → total = 0)) ∧
    ((∀ i ∈ inputs, i.isActive.getD true = false) →
      ∃ e, normalizeProductSKUInputs inputs ft existing = .error e) ∧
    (¬ (inputs.map (fun i => i.skuCode.trim.toLower)).Nodup →
      ∃ e, normalizeProductSKUInputs inputs ft existing = .error e) ∧
    ((∃ i ∈ inputs, i.priceAmount ≤ 0) →
      ∃ e, normalizeProductSKUInputs inputs ft existing = .error e) ∧
    ((∃ i ∈ inputs, i.manualStockTotal < 0) →
      ∃ e, normalizeProductSKUInputs inputs ft existing = .error e) := by
  refine ⟨?_, ?_, ?_, ?_, ?_⟩
  · intro norm price total h
    obtain ⟨acc, hloop, hact, hnorm, hprice, htotal⟩ :=
      normalizeProductSKUInputs_ok_inv inputs ft existing norm price total h
    have hany : inputs.any (fun i => i.isActive.getD true) = true := by
      have := normalizeLoop_hasActive ft existing inputs ⟨[], [], false, 0, 0⟩ acc hloop
      rw [hact] at this
      simpa using this.symm
    have hmin := normalizeLoop_min ft existing inputs ⟨[], [], false, 0, 0⟩ acc hloop
    have htot := normalizeLoop_manualTotal ft existing inputs
      ⟨[], [], false, 0, 0⟩ acc hloop
    refine ⟨?_, ?_, ?_, ?_⟩
    · obtain ⟨i, hi, hia, heq⟩ := (hmin.2.2 rfl).2 hany
      exact ⟨i, hi, hia, hprice ▸ heq⟩
    · intro i hi hia
      rw [hprice]
      exact hmin.1 i hi hia
    · intro hft
      subst hft
      rw [htotal]
      simp only [ne_eq, not_true_eq_false, if_false]
      rw [htot]
      simp
    · intro hft
      rw [htotal, if_pos hft]
  · intro hall
    cases hres : normalizeProductSKUInputs inputs ft existing with
    | error e => exact ⟨e, rfl⟩
    | ok t =>
      exfalso
      obtain ⟨norm, price, total⟩ := t
      obtain ⟨acc, hloop, hact, _, _, _⟩ :=
        normalizeProductSKUInputs_ok_inv inputs ft existing norm price total hres
      have hany : inputs.any (fun i => i.isActive.getD true) = true := by
        have := normalizeLoop_hasActive ft existing inputs ⟨[], [], false, 0, 0⟩ acc hloop
        rw [hact] at this
        simpa using this.symm
      obtain ⟨i, hi, hia⟩ := List.any_eq_true.mp hany
      rw [hall i hi] at hia
      cases hia
  · intro hdup
    cases hres : normalizeProductSKUInputs inputs ft existing with
    | error e => exact ⟨e, rfl⟩
    | ok t =>
      exfalso
      obtain ⟨norm, price, total⟩ := t
      obtain ⟨acc, hloop, _, _, _, _⟩ :=
        normalizeProductSKUInputs_ok_inv inputs ft existing norm price total hres
      exact hdup (normalizeLoop_nodup ft existing inputs ⟨[], [], false, 0, 0⟩ acc hloop)
  · rintro ⟨i, hi, hple⟩
    cases hres : normalizeProductSKUInputs inputs ft existing with
    | error e => exact ⟨e, rfl⟩
    | ok t =>
      exfalso
      obtain ⟨norm, price, total⟩ := t
      obtain ⟨acc, hloop, _, _, _, _⟩ :=
        normalizeProductSKUInputs_ok_inv inputs ft existing norm price total hres
      have hpos := (normalizeLoop_ok_elems ft existing inputs
        ⟨[], [], false, 0, 0⟩ acc hloop i hi).1
      have := roundTo2_nonpos i.priceAmount hple
      linarith
  · rintro ⟨i, hi, hneg⟩
    cases hres : normalizeProductSKUInputs inputs ft existing with
    | error e => exact ⟨e, rfl⟩
    | ok t =>
      exfalso
      obtain ⟨norm, price, total⟩ := t
      obtain ⟨acc, hloop, _, _, _, _⟩ :=
        normalizeProductSKUInputs_ok_inv inputs ft existing norm price total hres
      have hge := (normalizeLoop_ok_elems ft existing inputs
        ⟨[], [], false, 0, 0⟩ acc hloop i hi).2.1
      omega

/-- C10 witness: a one-row input with price 0 is rejected, and a
one-row all-inactive input is rejected, via
`normalizeProductSKUInputs_spec`. -/
theorem normalizeProductSKUInputs_spec_witness :
    (∃ e, normalizeProductSKUInputs [⟨0, "BASE", 0, 1, none, 0⟩]
      .manual none = .error e) ∧
    (∃ e, normalizeProductSKUInputs [⟨0, "BASE", 10, 1, some false, 0⟩]
      .manual none = .error e) := by
  constructor
  · exact (normalizeProductSKUInputs_spec [⟨0, "BASE", 0, 1, none, 0⟩]
      .manual none).2.2.2.1 ⟨⟨0, "BASE", 0, 1, none, 0⟩,
        List.mem_cons_self _ _, le_refl 0⟩
  · apply (normalizeProductSKUInputs_spec [⟨0, "BASE", 10, 1, some false, 0⟩]
      .manual none).2.1
    intro i hi
    rcases List.mem_singleton.mp hi with rfl
    rfl

/-- C7: lowering a SKU's manual stock total below `locked + sold` is
rejected with `errManualStockInvalid` and no state change: the
single-SKU sync path errors out, and the multi-SKU update path
(`normalizeProductSKUInputs` with an existing-SKU map) only succeeds
when every referenced existing SKU keeps `locked + sold ≤` its new
effective manual total. -/
theorem manualStock_lower_guard :
    (∀ (skus : List ProductSKU) (productID : Nat) (priceAmount : ℚ)
        (manualStockTotal : Int) (c : Bool) (sku : ProductSKU),
      productID ≠ 0 →
      skuListByProduct skus productID false = [sku] →
      manualStockTotal < sku.manualStockLocked + sku.manualStockSold →
      syncSingleProductSKU skus productID priceAmount manualStockTotal c =
        .error .errManualStockInvalid) ∧
    (∀ (inputs : List ProductSKUInput) (ft : FulfillmentType)
        (m : List (Nat × ProductSKU))
        (t : List NormalizedProductSKU × ℚ × Int),
      normalizeProductSKUInputs inputs ft (some m) = .ok t →
      ∀ i ∈ inputs, i.id > 0 →
        ∃ ex, mapLookup m i.id = some ex ∧
          ex.manualStockLocked + ex.manualStockSold ≤ manualTotalOf ft i) := by
  constructor
  · intro skus productID priceAmount manualStockTotal c sku hpid hlist hlt
    unfold syncSingleProductSKU
    rw [if_neg hpid]
    simp only [hlist]
    rw [if_pos hlt]
  · intro inputs ft m t h
    obtain ⟨norm, price, total⟩ := t
    obtain ⟨acc, hloop, _, _, _, _⟩ :=
      normalizeProductSKUInputs_ok_inv inputs ft (some m) norm price total h
    intro i hi hid
    exact (normalizeLoop_ok_elems ft (some m) inputs
      ⟨[], [], false, 0, 0⟩ acc hloop i hi).2.2.2 m rfl hid

/-- C7 witness: a SKU with locked=3, sold=5 rejects a resize of its
manual total to 7, via `manualStock_lower_guard`. -/
theorem manualStock_lower_guard_witness :
    syncSingleProductSKU [⟨7, 1, "default", 10, 20, 3, 5, true, 0⟩] 1 10 7 true =
      .error .errManualStockInvalid :=
  manualStock_lower_guard.1 [⟨7, 1, "default", 10, 20, 3, 5, true, 0⟩] 1 10 7 true
    ⟨7, 1, "default", 10, 20, 3, 5, true, 0⟩ (by decide) rfl (by decide)

end Dujiao
